import Mathlib

/-!
w_bot_go: a verification development of `main.go`.

A shallow embedding of the weather bot's `main.go` and theorems about it.

* Go strings are Lean `String`s; the helpers of package `strings` are embedded over the
  character list of the string (the separator and the prefixes the program uses are ASCII).
* `map[string]bool` is a total function `String → Bool`: reading a missing key yields the
  zero value `false`.
* The external collaborators (weather provider, JSON decoder, SQLite, chat transport, the
  `%.1f` rendering of `fmt`) are the fields of `Env`; the table `cities` is a list of rows.
* The three closures registered in `main` are `onStart`, `onText` and `onCallback`. A call
  of one of them ends either by returning its `error` value or in a Go run-time panic
  (`Outcome`); every `c.Send` call is recorded in the `World`.
* An `Event` is an update after telebot has chosen the handler for it.
-/

namespace WBot

/-! ## Deduplicator (`uniqueCities`, main.go 105-115) -/

/-- The `for _, city := range cities` loop of `uniqueCities`, with the local
variables `seen` and `result` as explicit loop state. -/
def uniqueCitiesLoop : List String → (String → Bool) → List String → List String
  | [], _, result => result
  | city :: rest, seen, result =>
    if !seen city then
      uniqueCitiesLoop rest (fun k => if k = city then true else seen k) (result ++ [city])
    else
      uniqueCitiesLoop rest seen result

/-- Embedding of `func uniqueCities(cities []string) []string`: `seen` starts as the empty
map and `result` as the nil slice. -/
def uniqueCities (cities : List String) : List String :=
  uniqueCitiesLoop cities (fun _ => false) []

/-- Specification-side definition (from the words of the specification, not from the code):
walk the positions of `xs` in order and keep the element at position `i` exactly when it
does not occur, by exact equality, at an earlier position. -/
def firstOccurrences (xs : List String) : List String :=
  (List.range xs.length).filterMap fun i =>
    match xs[i]? with
    | some x => if x ∈ xs.take i then none else some x
    | none => none

/-- Proof device: the elements of `xs` kept when the strings of `pre` have already been
met. -/
def keepNew : List String → List String → List String
  | _, [] => []
  | pre, x :: xs => if x ∈ pre then keepNew (pre ++ [x]) xs else x :: keepNew (pre ++ [x]) xs

/-! ## Package `strings` -/

/-- Embedding of `strings.HasPrefix(s, prefix)`. -/
def hasPrefix (s pfx : String) : Bool :=
  pfx.data.isPrefixOf s.data

/-- Cut a character list at every occurrence of `sep`; the pieces between the separators,
in order. A list without `sep` yields one piece (itself), also when it is empty. -/
def splitChars (sep : Char) : List Char → List (List Char)
  | [] => [[]]
  | c :: cs =>
    if c = sep then [] :: splitChars sep cs
    else
      match splitChars sep cs with
      | [] => [[c]]
      | p :: ps => (c :: p) :: ps

/-- Embedding of `strings.Split(s, sep)` for a one-character separator (the program only
calls it with `"|"`): all substrings of `s` separated by `sep`. -/
def stringsSplit (s : String) (sep : Char) : List String :=
  (splitChars sep s.data).map String.mk

/-! ## Data model -/

/-- A Go `float64`, carried as its 64-bit pattern; it is only ever passed to `fmt`. -/
structure Float64 where
  bits : Nat
deriving DecidableEq, Repr

/-- Field `Main` of `WeatherData`. -/
structure MainData where
  Temp : Float64
  FeelsLike : Float64
  Humidity : Int
  Pressure : Int
deriving DecidableEq, Repr

/-- Element type of field `Weather` of `WeatherData`. -/
structure Condition where
  Description : String
deriving DecidableEq, Repr

/-- Field `Wind` of `WeatherData`. -/
structure WindData where
  Speed : Float64
deriving DecidableEq, Repr

/-- Field `Clouds` of `WeatherData`. -/
structure CloudsData where
  All : Int
deriving DecidableEq, Repr

/-- Embedding of `type WeatherData struct` (main.go 19-35). -/
structure WeatherData where
  Main : MainData
  Weather : List Condition
  Wind : WindData
  Clouds : CloudsData
deriving DecidableEq, Repr

/-- The Go `error` values the program handles, by origin. -/
inductive Err where
  /-- error returned by `http.Get` -/
  | transport (msg : String)
  /-- the value of `fmt.Errorf("API request failed with status %d", resp.StatusCode)` -/
  | status (code : Int)
  /-- error returned by `json.NewDecoder(resp.Body).Decode` -/
  | decode (msg : String)
  /-- error returned by `db.Exec` or `db.Query` -/
  | store (msg : String)
  /-- error returned by `c.Send` -/
  | send (msg : String)
deriving DecidableEq, Repr

/-- The text of `err.Error()`. -/
def Err.Error : Err → String
  | .transport msg => msg
  | .status code => "API request failed with status " ++ toString code
  | .decode msg => msg
  | .store msg => msg
  | .send msg => msg

/-- What `http.Get(url)` yields: an error, or a response with its status code and body. -/
inductive HttpResult where
  | failed (msg : String)
  | response (StatusCode : Int) (Body : String)
deriving DecidableEq, Repr

/-- A row of table `cities (id INTEGER PRIMARY KEY AUTOINCREMENT, user_id INTEGER,
city_name TEXT)`. -/
structure Row where
  id : Nat
  user_id : Int
  city_name : String
deriving DecidableEq, Repr

/-- The SQLite database behind the global `db`: the rows of table `cities` in insertion
order, and the AUTOINCREMENT sequence (the largest id handed out so far). -/
structure DB where
  rows : List Row
  seq : Nat
deriving DecidableEq, Repr

/-! ## telebot reply markup (the part of `gopkg.in/telebot.v3` the program calls) -/

/-- The telebot type `Btn`: a button description not yet part of any keyboard. -/
structure Btn where
  Unique : String
  Text : String
  Data : String
deriving DecidableEq, Repr

/-- The telebot type `InlineButton`: a button of an inline keyboard. -/
structure InlineButton where
  Unique : String
  Text : String
  Data : String
deriving DecidableEq, Repr

/-- The telebot type `ReplyMarkup`; `&tele.ReplyMarkup{}` has an empty inline keyboard. -/
structure ReplyMarkup where
  InlineKeyboard : List (List InlineButton) := []
deriving DecidableEq, Repr

/-- The telebot method `(r *ReplyMarkup) Data(text, unique string, data ...string) Btn`: it
builds and returns a `Btn` whose data is `strings.Join(data, "|")`; the markup `r` is not
modified. -/
def ReplyMarkup.Data (_r : ReplyMarkup) (text unique : String) (data : List String) : Btn :=
  { Unique := unique, Text := text, Data := String.intercalate "|" data }

/-- The telebot method `(r *ReplyMarkup) Row(many ...Btn) Row`: the buttons as one row. -/
def ReplyMarkup.Row (_r : ReplyMarkup) (many : List Btn) : List Btn :=
  many

/-- The telebot method `(b Btn) Inline() *InlineButton`. -/
def Btn.Inline (b : Btn) : InlineButton :=
  { Unique := b.Unique, Text := b.Text, Data := b.Data }

/-- The telebot method `(r *ReplyMarkup) Inline(rows ...Row)`: sets the inline keyboard of
`r` to the given rows of buttons. -/
def ReplyMarkup.Inline (_r : ReplyMarkup) (rows : List (List Btn)) : ReplyMarkup :=
  { InlineKeyboard := rows.map fun row => row.map Btn.Inline }

/-- One call of `c.Send`: the text, and the reply markup when one is passed. -/
structure Sent where
  text : String
  menu : Option ReplyMarkup
deriving DecidableEq, Repr

/-! ## The environment of one handler call -/

/-- The external collaborators as seen during one handler call. -/
structure Env where
  /-- the global `weatherAPI` (the provider key) -/
  weatherAPI : String
  /-- the outcome of `http.Get` on a URL -/
  httpGet : String → HttpResult
  /-- the outcome of decoding a response body into `WeatherData` -/
  jsonDecode : String → Except String WeatherData
  /-- the error of the `INSERT` statement, when it fails -/
  execErr : Option String
  /-- the error of the `SELECT` statement, when it fails -/
  queryErr : Option String
  /-- the error of a `c.Send` call, when it fails -/
  sendErr : Sent → Option String
  /-- the rendering of a `float64` by the verb `%.1f` -/
  fmtF1 : Float64 → String

/-- The state a handler call reads and changes: the database, the `c.Send` calls made so
far (oldest first) and the lines written with `log.Println`. -/
structure World where
  db : DB
  sends : List Sent
  log : List String
deriving DecidableEq, Repr

/-- How a handler call ends: it returns its `error` value (`none` for `nil`), or a
run-time panic unwinds it. -/
inductive Outcome where
  | returned (err : Option Err)
  | panicked (msg : String)
deriving DecidableEq, Repr

/-! ## Weather client (`getWeather`, main.go 58-79) -/

/-- The URL built by `fmt.Sprintf` in `getWeather`. -/
def weatherURL (weatherAPI city : String) : String :=
  "http://api.openweathermap.org/data/2.5/weather?q=" ++ city ++ "&appid=" ++ weatherAPI
    ++ "&lang=ru&units=metric"

/-- Embedding of `func getWeather(city string) (*WeatherData, error)`. -/
def getWeather (env : Env) (city : String) : Except Err WeatherData :=
  match env.httpGet (weatherURL env.weatherAPI city) with
  | .failed msg => .error (.transport msg)
  | .response StatusCode Body =>
    if StatusCode ≠ 200 then
      .error (.status StatusCode)
    else
      match env.jsonDecode Body with
      | .error msg => .error (.decode msg)
      | .ok data => .ok data

/-! ## History store (`saveCity`, `getLastCities`, main.go 80-103) -/

/-- Embedding of `func saveCity(userID int64, city string) error`: one `INSERT`; the new
row gets the next AUTOINCREMENT id. A failed statement leaves the table as it was. -/
def saveCity (env : Env) (db : DB) (userID : Int) (city : String) : DB × Option Err :=
  match env.execErr with
  | some msg => (db, some (.store msg))
  | none =>
    ({ rows := db.rows ++ [{ id := db.seq + 1, user_id := userID, city_name := city }],
       seq := db.seq + 1 }, none)

/-- The rows selected by `WHERE user_id = ?`, in insertion order. -/
def userRows (rows : List Row) (userID : Int) : List Row :=
  rows.filter fun r => r.user_id = userID

/-- The statement `SELECT city_name FROM cities WHERE user_id = ? ORDER BY id DESC LIMIT 5`
evaluated on the table. -/
def selectLastCities (rows : List Row) (userID : Int) : List String :=
  (((userRows rows userID).insertionSort fun a b => a.id ≥ b.id).take 5).map
    fun r => r.city_name

/-- Embedding of `func getLastCities(userID int64) ([]string, error)`. -/
def getLastCities (env : Env) (db : DB) (userID : Int) : Except Err (List String) :=
  match env.queryErr with
  | some msg => .error (.store msg)
  | none => .ok (selectLastCities db.rows userID)

/-! ## Conversation handler (`main`, main.go 126-226) -/

/-- One `c.Send(text)` or `c.Send(text, menu)` call: recorded in the world; its result is
the transport's error, if any. -/
def send (env : Env) (w : World) (msg : Sent) : World × Option Err :=
  ({ w with sends := w.sends ++ [msg] }, (env.sendErr msg).map Err.send)

/-- The `return c.Send(...)` that ends a handler. -/
def sendReturn (env : Env) (w : World) (msg : Sent) : World × Outcome :=
  ((send env w msg).1, .returned (send env w msg).2)

/-- The handler registered for `/start` (main.go 126-128). -/
def onStart (env : Env) (w : World) : World × Outcome :=
  sendReturn env w ⟨"Привет! Введи название города, чтобы получить прогноз погоды.", none⟩

/-- The brief report built by `fmt.Sprintf` in the `tele.OnText` handler. -/
def briefReport (env : Env) (city : String) (weather : WeatherData) (c0 : Condition) : String :=
  "Погода в городе " ++ city ++ ":\nТемпература: " ++ env.fmtF1 weather.Main.Temp
    ++ "°C\nСостояние: " ++ c0.Description ++ "\n"

/-- The report built by `fmt.Sprintf` in the `weather` case of the callback handler. -/
def shortReport (env : Env) (city : String) (weather : WeatherData) (c0 : Condition) : String :=
  "Погода в городе " ++ city ++ ":\nТемпература: " ++ env.fmtF1 weather.Main.Temp
    ++ "°C\nСостояние: " ++ c0.Description ++ "\nВлажность: " ++ toString weather.Main.Humidity
    ++ "%\n"

/-- The report built by `fmt.Sprintf` in the `detailed_forecast` case of the callback
handler. -/
def detailedReport (env : Env) (city : String) (weather : WeatherData) (c0 : Condition) :
    String :=
  "Подробный прогноз погоды в городе " ++ city ++ ":\n"
    ++ "Температура: " ++ env.fmtF1 weather.Main.Temp ++ "°C\n"
    ++ "Ощущается как: " ++ env.fmtF1 weather.Main.FeelsLike ++ "°C\n"
    ++ "Состояние: " ++ c0.Description ++ "\n"
    ++ "Влажность: " ++ toString weather.Main.Humidity ++ "%\n"
    ++ "Давление: " ++ toString weather.Main.Pressure ++ " гПа\n"
    ++ "Скорость ветра: " ++ env.fmtF1 weather.Wind.Speed ++ " м/с\n"
    ++ "Облачность: " ++ toString weather.Clouds.All ++ "%\n"

/-- The menu built in the `tele.OnText` handler (main.go 145-152). -/
def textMenu (city : String) : ReplyMarkup :=
  let menu : ReplyMarkup := {}
  let btnCities := menu.Data "Показать последние введенные города" "show_last_cities" []
  let btnDetailed := menu.Data "Узнать более подробный прогноз" "detailed_forecast" [city]
  menu.Inline [menu.Row [btnCities], menu.Row [btnDetailed]]

/-- The handler registered for `tele.OnText` (main.go 130-158); `sender` is
`c.Sender().ID` and `text` is `c.Text()`. -/
def onText (env : Env) (sender : Int) (text : String) (w : World) : World × Outcome :=
  let city := text
  match getWeather env city with
  | .error _ =>
    sendReturn env w ⟨"Не удалось получить данные о погоде. Проверьте название города.", none⟩
  | .ok weather =>
    match weather.Weather[0]? with
    | none => (w, .panicked "runtime error: index out of range [0] with length 0")
    | some c0 =>
      let response := briefReport env city weather c0
      let saved := saveCity env w.db sender city
      let w1 : World :=
        { w with
          db := saved.1
          log := match saved.2 with
            | some err => w.log ++ ["Failed to save city: " ++ err.Error]
            | none => w.log }
      let menu := textMenu city
      let w2 := (send env w1 ⟨response, none⟩).1
      sendReturn env w2
        ⟨"Нажмите на кнопку ниже, чтобы увидеть последние введенные города или получить более подробный прогноз:",
          some menu⟩

/-- The menu built in the `show_last_cities` case (main.go 174-177): the loop calls
`menu.Data(city, "weather", city)` for each city and drops the button it returns. -/
def lastCitiesMenu (cities : List String) : ReplyMarkup :=
  (uniqueCities cities).foldl
    (fun menu city =>
      let _btn := menu.Data city "weather" [city]
      menu)
    {}

/-- The expression `strings.Split(data, "|")[1]` of the callback handler: `none` when the
index is out of range. -/
def callbackCity (data : String) : Option String :=
  (stringsSplit data '|')[1]?

/-- The handler registered for `tele.OnCallback` (main.go 159-226); `sender` is
`c.Sender().ID` and `data` is `c.Callback().Data`. -/
def onCallback (env : Env) (sender : Int) (data : String) (w : World) : World × Outcome :=
  if data = "show_last_cities" then
    match getLastCities env w.db sender with
    | .error err =>
      sendReturn env { w with log := w.log ++ [err.Error] }
        ⟨"Произошла ошибка при получении городов", none⟩
    | .ok cities =>
      if cities.length = 0 then
        sendReturn env w ⟨"У вас пока нет введенных городов.", none⟩
      else
        sendReturn env w
          ⟨"Выберите город, прогноз для которого хотите узнать:", some (lastCitiesMenu cities)⟩
  else if hasPrefix data "weather" then
    match callbackCity data with
    | none => (w, .panicked "runtime error: index out of range [1] with length 1")
    | some city =>
      match getWeather env city with
      | .error _ =>
        sendReturn env w ⟨"Не удалось получить данные о погоде для этого города.", none⟩
      | .ok weather =>
        match weather.Weather[0]? with
        | none => (w, .panicked "runtime error: index out of range [0] with length 0")
        | some c0 => sendReturn env w ⟨shortReport env city weather c0, none⟩
  else if hasPrefix data "detailed_forecast" then
    match callbackCity data with
    | none => (w, .panicked "runtime error: index out of range [1] with length 1")
    | some city =>
      match getWeather env city with
      | .error _ =>
        sendReturn env w ⟨"Не удалось получить данные о погоде для этого города.", none⟩
      | .ok weather =>
        match weather.Weather[0]? with
        | none => (w, .panicked "runtime error: index out of range [0] with length 0")
        | some c0 => sendReturn env w ⟨detailedReport env city weather c0, none⟩
  else
    (w, .returned none)

/-- An inbound event after telebot has routed it to one of the three registered
handlers. -/
inductive Event where
  | start (sender : Int)
  | text (sender : Int) (text : String)
  | callback (sender : Int) (data : String)
deriving DecidableEq, Repr

/-- Handling one event: the registered handler runs on the current world. -/
def handle (env : Env) (ev : Event) (w : World) : World × Outcome :=
  match ev with
  | .start _ => onStart env w
  | .text sender text => onText env sender text w
  | .callback sender data => onCallback env sender data w

/-- Specification-side reading of "the weather fetch succeeds" (from the words of the
specification, sections 4.1 and 7, not from the code): the Weather Client yields a report
that has a first weather condition; a transport error, a status other than 200, an
undecodable body and an empty condition list are all lookup failures. -/
def fetchSucceeds (env : Env) (city : String) : Bool :=
  match getWeather env city with
  | .ok weather => !weather.Weather.isEmpty
  | .error _ => false

/-- The environment `env` with the outcome of the `INSERT` statement set to `e`. -/
def withExecErr (env : Env) (e : Option String) : Env :=
  { env with execErr := e }

/-- The database invariant kept by `saveCity`: ids increase along the insertion order and
none exceeds the AUTOINCREMENT sequence. -/
def DB.WellFormed (db : DB) : Prop :=
  (db.rows.Pairwise fun a b => a.id < b.id) ∧ ∀ r ∈ db.rows, r.id ≤ db.seq

/-! ## Sample inputs -/

/-- A report with one condition, as decoded from
`{main:{temp,feels_like,humidity:60,pressure:1012}, weather:[{description:"clear sky"}], ...}`. -/
def clearSky : WeatherData :=
  { Main := { Temp := ⟨0x4035800000000000⟩, FeelsLike := ⟨0x4034000000000000⟩,
              Humidity := 60, Pressure := 1012 },
    Weather := [{ Description := "clear sky" }],
    Wind := { Speed := ⟨0x400999999999999A⟩ },
    Clouds := { All := 10 } }

/-- A decoded status-200 response whose `weather` list is empty. -/
def noConditions : WeatherData :=
  { clearSky with Weather := [] }

/-- A provider that knows every place except `Atlantis` (status 404) and answers with the
body `"clear"` (decoding to `clearSky`), and for `Nowhere` with the body `"empty"` (decoding
to `noConditions`); database and transport calls succeed. -/
def sampleEnv : Env :=
  { weatherAPI := "key"
    httpGet := fun url =>
      if url = weatherURL "key" "Atlantis" then .response 404 "not found"
      else if url = weatherURL "key" "Nowhere" then .response 200 "empty"
      else .response 200 "clear"
    jsonDecode := fun body =>
      if body = "clear" then .ok clearSky
      else if body = "empty" then .ok noConditions
      else .error "unexpected end of JSON input"
    execErr := none
    queryErr := none
    sendErr := fun _ => none
    fmtF1 := fun x =>
      if x.bits = 0x4035800000000000 then "21.5"
      else if x.bits = 0x4034000000000000 then "20.0"
      else if x.bits = 0x400999999999999A then "3.2"
      else "0.0" }

/-- A table with seven rows, six of them of user 7. -/
def sampleRows : List Row :=
  [⟨1, 7, "Oslo"⟩, ⟨2, 8, "Lima"⟩, ⟨3, 7, "Riga"⟩, ⟨4, 7, "Oslo"⟩, ⟨5, 7, "Bern"⟩,
   ⟨6, 7, "Oslo"⟩, ⟨7, 7, "Kyiv"⟩]

/-- The database holding `sampleRows`. -/
def sampleDB : DB :=
  { rows := sampleRows, seq := 7 }

/-- A world with the sample database, nothing sent and nothing logged. -/
def sampleWorld : World :=
  { db := sampleDB, sends := [], log := [] }

/-! ### Lemmas on the deduplicator -/

theorem uniqueCitiesLoop_eq (xs : List String) :
    ∀ (pre : List String) (seen : String → Bool) (result : List String),
      (∀ k, seen k = true ↔ k ∈ pre) →
      uniqueCitiesLoop xs seen result = result ++ keepNew pre xs := by
  induction xs with
  | nil => intro pre seen result _; simp [uniqueCitiesLoop, keepNew]
  | cons x xs ih =>
    intro pre seen result hseen
    by_cases hx : x ∈ pre
    · have hs : seen x = true := (hseen x).2 hx
      have hnext : ∀ k, seen k = true ↔ k ∈ pre ++ [x] := by
        intro k
        constructor
        · intro h; exact List.mem_append_left _ ((hseen k).1 h)
        · intro h
          rcases List.mem_append.1 h with h | h
          · exact (hseen k).2 h
          · have : k = x := by simpa using h
            rw [this]; exact hs
      have h1 : uniqueCitiesLoop (x :: xs) seen result = uniqueCitiesLoop xs seen result := by
        simp [uniqueCitiesLoop, hs]
      have h2 : keepNew pre (x :: xs) = keepNew (pre ++ [x]) xs := by
        simp [keepNew, hx]
      rw [h1, h2]
      exact ih (pre ++ [x]) seen result hnext
    · have hs : seen x = false := by
        cases h : seen x with
        | false => rfl
        | true => exact absurd ((hseen x).1 h) hx
      have hnext : ∀ k, (if k = x then true else seen k) = true ↔ k ∈ pre ++ [x] := by
        intro k
        by_cases hk : k = x
        · simp [hk]
        · simp [hk, hseen k]
      have h1 : uniqueCitiesLoop (x :: xs) seen result
          = uniqueCitiesLoop xs (fun k => if k = x then true else seen k) (result ++ [x]) := by
        simp [uniqueCitiesLoop, hs]
      have h2 : keepNew pre (x :: xs) = x :: keepNew (pre ++ [x]) xs := by
        simp [keepNew, hx]
      rw [h1, h2, ih (pre ++ [x]) _ (result ++ [x]) hnext]
      simp

theorem uniqueCities_eq_keepNew (xs : List String) : uniqueCities xs = keepNew [] xs := by
  unfold uniqueCities
  rw [uniqueCitiesLoop_eq xs [] (fun _ => false) [] (by simp)]
  simp

theorem firstOccurrences_gen (xs : List String) :
    ∀ pre : List String,
      ((List.range xs.length).filterMap fun i =>
        match (pre ++ xs)[pre.length + i]? with
        | some x => if x ∈ (pre ++ xs).take (pre.length + i) then none else some x
        | none => none) = keepNew pre xs := by
  induction xs with
  | nil => intro pre; simp [keepNew]
  | cons x xs ih =>
    intro pre
    have hstep : ∀ i : Nat,
        (match (pre ++ x :: xs)[pre.length + (i + 1)]? with
          | some y => if y ∈ (pre ++ x :: xs).take (pre.length + (i + 1)) then none else some y
          | none => none)
        = (match ((pre ++ [x]) ++ xs)[(pre ++ [x]).length + i]? with
          | some y => if y ∈ ((pre ++ [x]) ++ xs).take ((pre ++ [x]).length + i) then none
              else some y
          | none => none) := by
      intro i
      have e1 : pre ++ x :: xs = (pre ++ [x]) ++ xs := by simp
      have e2 : pre.length + (i + 1) = (pre ++ [x]).length + i := by simp; omega
      rw [e1, e2]
    rw [List.length_cons, List.range_succ_eq_map, List.filterMap_cons, List.filterMap_map]
    have hrest : (List.filterMap ((fun i =>
          match (pre ++ x :: xs)[pre.length + i]? with
          | some y => if y ∈ (pre ++ x :: xs).take (pre.length + i) then none else some y
          | none => none) ∘ Nat.succ) (List.range xs.length)) = keepNew (pre ++ [x]) xs := by
      rw [← ih (pre ++ [x])]
      apply List.filterMap_congr
      intro i _
      exact hstep i
    rw [hrest]
    have e0 : (pre ++ x :: xs)[pre.length]? = some x := by
      rw [List.getElem?_append_right (le_refl _)]; simp
    have t0 : (pre ++ x :: xs).take pre.length = pre := by simp
    simp only [Nat.add_zero, e0, t0]
    by_cases hx : x ∈ pre <;> simp [keepNew, hx]

theorem firstOccurrences_eq_keepNew (xs : List String) : firstOccurrences xs = keepNew [] xs := by
  have h := firstOccurrences_gen xs []
  simpa [firstOccurrences] using h

theorem mem_keepNew (xs : List String) :
    ∀ (pre : List String) (y : String), y ∈ keepNew pre xs ↔ y ∈ xs ∧ y ∉ pre := by
  induction xs with
  | nil => intro pre y; simp [keepNew]
  | cons x xs ih =>
    intro pre y
    by_cases hx : x ∈ pre
    · simp only [keepNew, hx, if_true, ih, List.mem_append, List.mem_singleton, List.mem_cons]
      constructor
      · rintro ⟨h1, h2⟩
        exact ⟨Or.inr h1, fun h => h2 (Or.inl h)⟩
      · rintro ⟨h1, h2⟩
        rcases h1 with h1 | h1
        · exact absurd (h1 ▸ hx) h2
        · refine ⟨h1, ?_⟩
          rintro (h | h | h)
          · exact h2 h
          · exact h2 (h ▸ hx)
          · exact absurd h (List.not_mem_nil _)
    · simp only [keepNew, hx, if_false, ih, List.mem_append, List.mem_singleton, List.mem_cons]
      constructor
      · rintro (h | ⟨h1, h2⟩)
        · exact ⟨Or.inl h, h ▸ hx⟩
        · exact ⟨Or.inr h1, fun h => h2 (Or.inl h)⟩
      · rintro ⟨h1, h2⟩
        by_cases hy : y = x
        · exact Or.inl hy
        · rcases h1 with h1 | h1
          · exact absurd h1 hy
          · refine Or.inr ⟨h1, ?_⟩
            rintro (h | h | h)
            · exact h2 h
            · exact hy h
            · exact absurd h (List.not_mem_nil _)

theorem nodup_keepNew (xs : List String) : ∀ pre : List String, (keepNew pre xs).Nodup := by
  induction xs with
  | nil => intro pre; simp [keepNew]
  | cons x xs ih =>
    intro pre
    by_cases hx : x ∈ pre
    · simp only [keepNew, hx, if_true]
      exact ih _
    · simp only [keepNew, hx, if_false]
      refine List.nodup_cons.2 ⟨?_, ih _⟩
      intro h
      have := ((mem_keepNew xs (pre ++ [x]) x).1 h).2
      exact this (by simp)

theorem sublist_keepNew (xs : List String) : ∀ pre : List String, (keepNew pre xs).Sublist xs := by
  induction xs with
  | nil => intro pre; simp [keepNew]
  | cons x xs ih =>
    intro pre
    by_cases hx : x ∈ pre
    · simp only [keepNew, hx, if_true]
      exact (ih _).cons _
    · simp only [keepNew, hx, if_false]
      exact (ih _).cons₂ _

theorem keepNew_of_nodup (l : List String) :
    ∀ pre : List String, l.Nodup → (∀ y ∈ l, y ∉ pre) → keepNew pre l = l := by
  induction l with
  | nil => intro pre _ _; simp [keepNew]
  | cons x l ih =>
    intro pre hnd hdis
    have hx : x ∉ pre := hdis x (by simp)
    have hnd2 := List.nodup_cons.1 hnd
    simp only [keepNew, hx, if_false]
    congr 1
    apply ih _ hnd2.2
    intro y hy hmem
    rcases List.mem_append.1 hmem with h | h
    · exact hdis y (List.mem_cons_of_mem _ hy) h
    · have : y = x := by simpa using h
      exact hnd2.1 (this ▸ hy)

/-- C1. `uniqueCities xs` is the list obtained by walking `xs` in order and keeping exactly
the elements at positions whose string does not occur at an earlier position; hence it has
no duplicates, has the same members as `xs`, and is a subsequence of `xs`; and
`uniqueCities ["Oslo","Oslo","Riga","Oslo"] = ["Oslo","Riga"]`. -/
theorem uniqueCities_keeps_first_occurrences (xs : List String) :
    uniqueCities xs = firstOccurrences xs
      ∧ (uniqueCities xs).Nodup
      ∧ (∀ x, x ∈ uniqueCities xs ↔ x ∈ xs)
      ∧ (uniqueCities xs).Sublist xs
      ∧ uniqueCities ["Oslo", "Oslo", "Riga", "Oslo"] = ["Oslo", "Riga"] := by
  refine ⟨?_, ?_, ?_, ?_, by decide⟩
  · rw [uniqueCities_eq_keepNew, firstOccurrences_eq_keepNew]
  · rw [uniqueCities_eq_keepNew]; exact nodup_keepNew xs []
  · intro x; rw [uniqueCities_eq_keepNew, mem_keepNew]; simp
  · rw [uniqueCities_eq_keepNew]; exact sublist_keepNew xs []

/-- C9. `uniqueCities` is idempotent on every list, and `uniqueCities [] = []`. -/
theorem uniqueCities_idempotent (xs : List String) :
    uniqueCities (uniqueCities xs) = uniqueCities xs ∧ uniqueCities [] = [] := by
  refine ⟨?_, rfl⟩
  rw [uniqueCities_eq_keepNew xs, uniqueCities_eq_keepNew (keepNew [] xs)]
  exact keepNew_of_nodup _ [] (nodup_keepNew xs []) (by simp)


/-! ### Lemmas on the history store -/

theorem userRows_pairwise (rows : List Row) (u : Int)
    (hids : rows.Pairwise fun a b => a.id < b.id) :
    (userRows rows u).Pairwise fun a b => a.id < b.id :=
  hids.sublist (List.filter_sublist rows)

theorem orderByIdDesc_eq_reverse (l : List Row) (hl : l.Pairwise fun a b => a.id < b.id) :
    (l.insertionSort fun a b => a.id ≥ b.id) = l.reverse := by
  haveI : IsTotal Row (fun a b => a.id ≥ b.id) := ⟨fun a b => Nat.le_total b.id a.id⟩
  haveI : IsTrans Row (fun a b => a.id ≥ b.id) := ⟨fun _ _ _ h1 h2 => Nat.le_trans h2 h1⟩
  haveI : IsAntisymm Row (fun a b => a.id > b.id) :=
    ⟨fun _ _ h1 h2 => absurd h1 (Nat.lt_asymm h2)⟩
  have hperm : (l.insertionSort fun a b => a.id ≥ b.id).Perm l := List.perm_insertionSort _ l
  have hge : (l.insertionSort fun a b => a.id ≥ b.id).Pairwise fun a b => a.id ≥ b.id :=
    List.sorted_insertionSort _ l
  have hne : l.Pairwise fun a b => a.id ≠ b.id := hl.imp fun h => Nat.ne_of_lt h
  have hne2 : (l.insertionSort fun a b => a.id ≥ b.id).Pairwise fun a b => a.id ≠ b.id :=
    (hperm.pairwise_iff fun h => Ne.symm h).2 hne
  have hgt : (l.insertionSort fun a b => a.id ≥ b.id).Pairwise fun a b => a.id > b.id :=
    (hge.and hne2).imp fun h => Nat.lt_of_le_of_ne h.1 (Ne.symm h.2)
  have hrev : l.reverse.Pairwise fun a b => a.id > b.id := List.pairwise_reverse.2 hl
  exact List.eq_of_perm_of_sorted (hperm.trans (List.reverse_perm l).symm) hgt hrev

theorem selectLastCities_eq (rows : List Row) (u : Int)
    (hids : rows.Pairwise fun a b => a.id < b.id) :
    selectLastCities rows u = (((userRows rows u).reverse).take 5).map fun r => r.city_name := by
  unfold selectLastCities
  rw [orderByIdDesc_eq_reverse _ (userRows_pairwise rows u hids)]

/-- C5. With the table a list of rows in insertion order whose ids increase, a successful
`getLastCities u` returns the city names of the rows of `u` only, by id descending (which is
newest first), cut to the first 5; its length is `min 5 (number of rows of u)`; and for a
user with more than 5 rows it is exactly the names of the 5 most recently inserted rows,
newest first. -/
theorem getLastCities_newest_first (env : Env) (db : DB) (u : Int)
    (hq : env.queryErr = none)
    (hids : db.rows.Pairwise fun a b => a.id < b.id) :
    getLastCities env db u
        = .ok ((((userRows db.rows u).reverse).take 5).map fun r => r.city_name)
      ∧ ((userRows db.rows u).reverse).Pairwise (fun a b => a.id > b.id)
      ∧ (∀ r, r ∈ userRows db.rows u ↔ r ∈ db.rows ∧ r.user_id = u)
      ∧ (∀ cities, getLastCities env db u = .ok cities →
          cities.length = min 5 (userRows db.rows u).length)
      ∧ (5 < (userRows db.rows u).length →
          getLastCities env db u
            = .ok ((((userRows db.rows u).drop ((userRows db.rows u).length - 5)).map
                fun r => r.city_name).reverse)) := by
  have hres : getLastCities env db u
      = .ok ((((userRows db.rows u).reverse).take 5).map fun r => r.city_name) := by
    simp only [getLastCities, hq]
    rw [selectLastCities_eq db.rows u hids]
  refine ⟨hres, ?_, ?_, ?_, ?_⟩
  · exact List.pairwise_reverse.2 (userRows_pairwise db.rows u hids)
  · intro r; simp [userRows]
  · intro cities hc
    rw [hres] at hc
    injection hc with hc
    rw [← hc]
    simp
  · intro _
    rw [hres, List.take_reverse, List.map_reverse]

/-- Witness of C5 on the sample table: user 7 has six rows and gets the five newest. -/
theorem getLastCities_newest_first_witness :
    sampleEnv.queryErr = none
      ∧ (sampleDB.rows.Pairwise fun a b => a.id < b.id)
      ∧ 5 < (userRows sampleDB.rows 7).length
      ∧ getLastCities sampleEnv sampleDB 7 = .ok ["Kyiv", "Oslo", "Bern", "Oslo", "Riga"] :=
  ⟨rfl, by decide, by decide,
    ((getLastCities_newest_first sampleEnv sampleDB 7 rfl (by decide)).2.2.2.2
      (by decide)).trans rfl⟩

/-! ### Lemmas on `strings.Split` -/

theorem splitChars_append_sep (sep : Char) (rest : List Char) :
    ∀ p : List Char, sep ∉ p → splitChars sep (p ++ sep :: rest) = p :: splitChars sep rest := by
  intro p
  induction p with
  | nil => intro _; simp [splitChars]
  | cons c p ih =>
    intro h
    have hc : c ≠ sep := fun e => h (by simp [e])
    have hp : sep ∉ p := fun e => h (List.mem_cons_of_mem _ e)
    simp [splitChars, hc, ih hp]

theorem splitChars_head (sep : Char) :
    ∀ l : List Char, ∃ tl, splitChars sep l = (l.takeWhile fun x => x != sep) :: tl := by
  intro l
  induction l with
  | nil => exact ⟨[], by simp [splitChars]⟩
  | cons c cs ih =>
    obtain ⟨tl, htl⟩ := ih
    by_cases hc : c = sep
    · exact ⟨splitChars sep cs, by simp [splitChars, hc]⟩
    · exact ⟨tl, by simp [splitChars, hc, htl]⟩

theorem splitChars_of_not_mem (sep : Char) :
    ∀ l : List Char, sep ∉ l → splitChars sep l = [l] := by
  intro l
  induction l with
  | nil => intro _; simp [splitChars]
  | cons c cs ih =>
    intro h
    have hc : c ≠ sep := fun e => h (by simp [e])
    have hp : sep ∉ cs := fun e => h (List.mem_cons_of_mem _ e)
    simp [splitChars, hc, ih hp]

theorem callbackCity_append (a c : String) (ha : '|' ∉ a.data) :
    callbackCity (a ++ "|" ++ c) = some (String.mk (c.data.takeWhile fun x => x != '|')) := by
  obtain ⟨tl, htl⟩ := splitChars_head '|' c.data
  have hd : (a ++ "|" ++ c).data = a.data ++ '|' :: c.data := by
    simp [String.data_append]
  simp [callbackCity, stringsSplit, hd, splitChars_append_sep '|' c.data a.data ha, htl]

/-- C3 (as amended). For an action `a` in {"weather", "detailed_forecast"} and a city `c`,
the city the callback handler extracts from the payload `a + "|" + c` is the part of `c`
before its first `|`; it is exactly `c` when `c` contains no `|`. -/
theorem callbackCity_payload (a c : String) (ha : a = "weather" ∨ a = "detailed_forecast") :
    callbackCity (a ++ "|" ++ c) = some (String.mk (c.data.takeWhile fun x => x != '|'))
      ∧ ('|' ∉ c.data → callbackCity (a ++ "|" ++ c) = some c) := by
  have hbar : '|' ∉ a.data := by
    rcases ha with h | h <;> subst h <;> decide
  have h1 := callbackCity_append a c hbar
  refine ⟨h1, ?_⟩
  intro hc
  rw [h1]
  have : (c.data.takeWhile fun x => x != '|') = c.data := by
    rw [List.takeWhile_eq_self_iff]
    intro x hx
    have : x ≠ '|' := fun e => hc (e ▸ hx)
    simpa using this
  rw [this]

/-- Witness of C3 (as amended): the payload `weather|Oslo` yields the city `Oslo`. -/
theorem callbackCity_payload_witness :
    ("weather" = "weather" ∨ "weather" = "detailed_forecast")
      ∧ '|' ∉ "Oslo".data
      ∧ callbackCity ("weather" ++ "|" ++ "Oslo") = some "Oslo" :=
  ⟨Or.inl rfl, by decide, (callbackCity_payload "weather" "Oslo" (Or.inl rfl)).2 (by decide)⟩

/-- C3 (as stated) fails: from the payload `weather|New|York`, built from the city
`New|York`, the callback handler extracts `New`, not `New|York`. -/
theorem callbackCity_bar_in_city :
    callbackCity ("weather" ++ "|" ++ "New|York") = some "New"
      ∧ callbackCity ("weather" ++ "|" ++ "New|York") ≠ some "New|York"
      ∧ callbackCity ("detailed_forecast" ++ "|" ++ "New|York") ≠ some "New|York" := by
  decide

/-! ### Lemmas on the handlers -/

theorem getWeather_withExecErr (env : Env) (e : Option String) (city : String) :
    getWeather (withExecErr env e) city = getWeather env city := rfl

theorem onText_of_error (env : Env) (sender : Int) (city : String) (w : World) (err : Err)
    (h : getWeather env city = .error err) :
    onText env sender city w
      = sendReturn env w
          ⟨"Не удалось получить данные о погоде. Проверьте название города.", none⟩ := by
  simp only [onText, h]

theorem onText_of_empty (env : Env) (sender : Int) (city : String) (w : World)
    (weather : WeatherData) (h : getWeather env city = .ok weather) (he : weather.Weather = []) :
    onText env sender city w
      = (w, .panicked "runtime error: index out of range [0] with length 0") := by
  simp [onText, h, he]

theorem onText_of_report (env : Env) (sender : Int) (city : String) (w : World)
    (weather : WeatherData) (c0 : Condition) (rest : List Condition)
    (h : getWeather env city = .ok weather) (he : weather.Weather = c0 :: rest) :
    onText env sender city w
      = sendReturn env
          (send env
            { w with
              db := (saveCity env w.db sender city).1
              log := match (saveCity env w.db sender city).2 with
                | some err => w.log ++ ["Failed to save city: " ++ err.Error]
                | none => w.log }
            ⟨briefReport env city weather c0, none⟩).1
          ⟨"Нажмите на кнопку ниже, чтобы увидеть последние введенные города или получить более подробный прогноз:",
            some (textMenu city)⟩ := by
  simp [onText, h, he]

theorem getWeather_error_of_failure (env : Env) (city : String)
    (hfail : (∃ msg, env.httpGet (weatherURL env.weatherAPI city) = .failed msg)
      ∨ (∃ code body, env.httpGet (weatherURL env.weatherAPI city) = .response code body
          ∧ (code ≠ 200 ∨ ∃ msg, env.jsonDecode body = .error msg))) :
    ∃ err, getWeather env city = .error err := by
  rcases hfail with ⟨msg, h⟩ | ⟨code, body, h, hc | ⟨msg, hd⟩⟩
  · exact ⟨.transport msg, by simp [getWeather, h]⟩
  · exact ⟨.status code, by simp [getWeather, h, hc]⟩
  · by_cases hc : code = 200
    · exact ⟨.decode msg, by simp [getWeather, h, hc, hd]⟩
    · exact ⟨.status code, by simp [getWeather, h, hc]⟩

/-- C7. When the weather client fails for a place name (transport error, a status other than
200, or an undecodable body), `getWeather` returns an error and no report, and the
free-text handler makes exactly one `Send` call, with the fixed "could not retrieve weather"
text and no menu, and leaves the history store as it was. -/
theorem onText_fetch_failure (env : Env) (sender : Int) (city : String) (w : World)
    (hfail : (∃ msg, env.httpGet (weatherURL env.weatherAPI city) = .failed msg)
      ∨ (∃ code body, env.httpGet (weatherURL env.weatherAPI city) = .response code body
          ∧ (code ≠ 200 ∨ ∃ msg, env.jsonDecode body = .error msg))) :
    (∃ err, getWeather env city = .error err)
      ∧ (onText env sender city w).1.sends
          = w.sends
            ++ [⟨"Не удалось получить данные о погоде. Проверьте название города.", none⟩]
      ∧ (onText env sender city w).1.db = w.db
      ∧ ∃ e, (onText env sender city w).2 = .returned e := by
  obtain ⟨err, herr⟩ := getWeather_error_of_failure env city hfail
  refine ⟨⟨err, herr⟩, ?_, ?_, ?_⟩
  · rw [onText_of_error env sender city w err herr]; rfl
  · rw [onText_of_error env sender city w err herr]; rfl
  · rw [onText_of_error env sender city w err herr]; exact ⟨_, rfl⟩

/-- Witness of C7: the provider answers 404 for `Atlantis`. -/
theorem onText_fetch_failure_witness :
    sampleEnv.httpGet (weatherURL sampleEnv.weatherAPI "Atlantis") = .response 404 "not found"
      ∧ getWeather sampleEnv "Atlantis" = .error (.status 404)
      ∧ (onText sampleEnv 7 "Atlantis" sampleWorld).1.sends
          = [⟨"Не удалось получить данные о погоде. Проверьте название города.", none⟩]
      ∧ (onText sampleEnv 7 "Atlantis" sampleWorld).1.db = sampleDB :=
  ⟨rfl, rfl,
    (onText_fetch_failure sampleEnv 7 "Atlantis" sampleWorld
      (Or.inr ⟨404, "not found", rfl, Or.inl (by decide)⟩)).2.1,
    (onText_fetch_failure sampleEnv 7 "Atlantis" sampleWorld
      (Or.inr ⟨404, "not found", rfl, Or.inl (by decide)⟩)).2.2.1⟩

theorem onText_sends_of_report (env : Env) (sender : Int) (city : String) (w : World)
    (weather : WeatherData) (c0 : Condition) (rest : List Condition)
    (h : getWeather env city = .ok weather) (he : weather.Weather = c0 :: rest) :
    (onText env sender city w).1.sends
        = w.sends
          ++ [⟨briefReport env city weather c0, none⟩,
              ⟨"Нажмите на кнопку ниже, чтобы увидеть последние введенные города или получить более подробный прогноз:",
                some (textMenu city)⟩]
      ∧ (onText env sender city w).2
        = .returned
            ((env.sendErr
              ⟨"Нажмите на кнопку ниже, чтобы увидеть последние введенные города или получить более подробный прогноз:",
                some (textMenu city)⟩).map Err.send) := by
  rw [onText_of_report env sender city w weather c0 rest h he]
  simp [sendReturn, send]

theorem onText_db_of_report (env : Env) (sender : Int) (city : String) (w : World)
    (weather : WeatherData) (c0 : Condition) (rest : List Condition)
    (h : getWeather env city = .ok weather) (he : weather.Weather = c0 :: rest) :
    (onText env sender city w).1.db = (saveCity env w.db sender city).1 := by
  rw [onText_of_report env sender city w weather c0 rest h he]
  rfl

/-- C8. A failing history-store write is swallowed. For a free-text message whose weather
fetch succeeds with a non-empty condition list, the `Send` calls of the handler are the
same whether `saveCity` fails or succeeds: the brief report, which contains the city name
verbatim, then the prompt with the menu of two rows, one button `show_last_cities` and one
button `detailed_forecast` carrying the city. The value the handler returns is the result of
the last `Send` in both cases, never the store error. -/
theorem onText_save_failure_swallowed (env : Env) (sender : Int) (city : String) (w : World)
    (weather : WeatherData) (msg : String)
    (hget : getWeather env city = .ok weather) (hne : weather.Weather ≠ []) :
    (onText (withExecErr env (some msg)) sender city w).1.sends
        = (onText (withExecErr env none) sender city w).1.sends
      ∧ (∃ c0 pre post, weather.Weather.head? = some c0
          ∧ briefReport env city weather c0 = pre ++ city ++ post
          ∧ (onText (withExecErr env (some msg)) sender city w).1.sends
            = w.sends
              ++ [⟨briefReport env city weather c0, none⟩,
                  ⟨"Нажмите на кнопку ниже, чтобы увидеть последние введенные города или получить более подробный прогноз:",
                    some (textMenu city)⟩])
      ∧ (textMenu city).InlineKeyboard
          = [[⟨"show_last_cities", "Показать последние введенные города", ""⟩],
             [⟨"detailed_forecast", "Узнать более подробный прогноз", city⟩]]
      ∧ (saveCity (withExecErr env (some msg)) w.db sender city).2 = some (.store msg)
      ∧ (onText (withExecErr env (some msg)) sender city w).2
          = (onText (withExecErr env none) sender city w).2
      ∧ (∀ m, (onText (withExecErr env (some msg)) sender city w).2
          ≠ .returned (some (.store m))) := by
  obtain ⟨c0, rest, he⟩ : ∃ c0 rest, weather.Weather = c0 :: rest := by
    cases hw : weather.Weather with
    | nil => exact absurd hw hne
    | cons c0 rest => exact ⟨c0, rest, rfl⟩
  have hf := onText_sends_of_report (withExecErr env (some msg)) sender city w weather c0 rest
    (by rw [getWeather_withExecErr]; exact hget) he
  have hs := onText_sends_of_report (withExecErr env none) sender city w weather c0 rest
    (by rw [getWeather_withExecErr]; exact hget) he
  refine ⟨?_, ⟨c0, "Погода в городе ",
      ":\nТемпература: " ++ env.fmtF1 weather.Main.Temp ++ "°C\nСостояние: "
        ++ c0.Description ++ "\n", ?_, ?_, ?_⟩, ?_, ?_, ?_, ?_⟩
  · rw [hf.1, hs.1]; rfl
  · rw [he]; rfl
  · simp [briefReport, String.append_assoc]
  · rw [hf.1]; rfl
  · rfl
  · rfl
  · rw [hf.2, hs.2]; rfl
  · intro m
    rw [hf.2]
    cases (withExecErr env (some msg)).sendErr
        ⟨"Нажмите на кнопку ниже, чтобы увидеть последние введенные города или получить более подробный прогноз:",
          some (textMenu city)⟩ <;> simp

/-- Witness of C8: `Berlin` on the sample provider, whose report has one condition. -/
theorem onText_save_failure_swallowed_witness :
    getWeather sampleEnv "Berlin" = .ok clearSky
      ∧ clearSky.Weather ≠ []
      ∧ (onText (withExecErr sampleEnv (some "database is locked")) 7 "Berlin" sampleWorld).1.sends
          = (onText (withExecErr sampleEnv none) 7 "Berlin" sampleWorld).1.sends :=
  ⟨rfl, by decide,
    (onText_save_failure_swallowed sampleEnv 7 "Berlin" sampleWorld clearSky
      "database is locked" rfl (by decide)).1⟩

theorem lastCitiesMenu_eq (cities : List String) : lastCitiesMenu cities = {} := by
  unfold lastCitiesMenu
  induction uniqueCities cities with
  | nil => rfl
  | cons c cs ih => simp [List.foldl_cons]

theorem onCallback_of_empty (env : Env) (sender : Int) (data city : String) (w : World)
    (weather : WeatherData) (hd : data ≠ "show_last_cities")
    (hp : hasPrefix data "weather" = true ∨ hasPrefix data "detailed_forecast" = true)
    (hc : callbackCity data = some city)
    (h : getWeather env city = .ok weather) (he : weather.Weather = []) :
    onCallback env sender data w
      = (w, .panicked "runtime error: index out of range [0] with length 0") := by
  by_cases hw : hasPrefix data "weather" = true
  · simp [onCallback, hd, hw, hc, h, he]
  · have hdf : hasPrefix data "detailed_forecast" = true := hp.resolve_left hw
    simp [onCallback, hd, hw, hdf, hc, h, he]

theorem onCallback_db (env : Env) (sender : Int) (data : String) (w : World) :
    (onCallback env sender data w).1.db = w.db := by
  unfold onCallback
  repeat' split
  all_goals rfl

/-- The effect of handling one event on the history store, for every event: the store is
touched only by a free-text message whose fetch yields a report with at least one
condition, and then by the one `saveCity` call. -/
theorem handle_db (env : Env) (ev : Event) (w : World) :
    (handle env ev w).1.db
      = match ev with
        | .text sender city =>
          match getWeather env city with
          | .ok weather =>
            if weather.Weather = [] then w.db else (saveCity env w.db sender city).1
          | .error _ => w.db
        | _ => w.db := by
  cases ev with
  | start sender => rfl
  | callback sender data => exact onCallback_db env sender data w
  | text sender city =>
    simp only [handle]
    cases h : getWeather env city with
    | error err => simp only [onText_of_error env sender city w err h]; rfl
    | ok weather =>
      cases he : weather.Weather with
      | nil => simp [onText_of_empty env sender city w weather h he, he]
      | cons c0 rest => simp [onText_db_of_report env sender city w weather c0 rest h he, he]

theorem saveCity_wellFormed (env : Env) (db : DB) (userID : Int) (city : String)
    (hdb : db.WellFormed) : (saveCity env db userID city).1.WellFormed := by
  unfold saveCity
  cases env.execErr with
  | some msg => exact hdb
  | none =>
    refine ⟨?_, ?_⟩
    · refine List.pairwise_append.2 ⟨hdb.1, by simp, ?_⟩
      intro a ha b hb
      have hb2 : b.id = db.seq + 1 := by
        have : b = { id := db.seq + 1, user_id := userID, city_name := city } := by
          simpa using hb
        rw [this]
      have := hdb.2 a ha
      omega
    · intro r hr
      rcases List.mem_append.1 hr with h | h
      · have := hdb.2 r h
        show r.id ≤ db.seq + 1
        omega
      · have : r = { id := db.seq + 1, user_id := userID, city_name := city } := by
          simpa using h
        rw [this]

/-- Handling an event keeps the database invariant under which `getLastCities` is
characterised. -/
theorem handle_wellFormed (env : Env) (ev : Event) (w : World) (hdb : w.db.WellFormed) :
    (handle env ev w).1.db.WellFormed := by
  rw [handle_db]
  cases ev with
  | start sender => exact hdb
  | callback sender data => exact hdb
  | text sender city =>
    simp only
    cases getWeather env city with
    | error err => exact hdb
    | ok weather =>
      simp only
      split
      · exact hdb
      · exact saveCity_wellFormed env w.db sender city hdb

/-- C2 (a defect of the code). On a decoded status-200 response whose weather list is empty
none of the three weather-fetch sites sends the lookup-failure reply: each evaluates
`weather.Weather[0]` and ends in an index-out-of-range panic with nothing sent. -/
theorem empty_weather_list_panics (sender : Int) (w : World) :
    getWeather sampleEnv "Nowhere" = .ok noConditions
      ∧ noConditions.Weather = []
      ∧ onText sampleEnv sender "Nowhere" w
          = (w, .panicked "runtime error: index out of range [0] with length 0")
      ∧ onCallback sampleEnv sender "weather|Nowhere" w
          = (w, .panicked "runtime error: index out of range [0] with length 0")
      ∧ onCallback sampleEnv sender "detailed_forecast|Nowhere" w
          = (w, .panicked "runtime error: index out of range [0] with length 0") :=
  ⟨rfl, rfl, rfl, rfl, rfl⟩

/-- C4 (a defect of the code). On "show last cities" for a user with a non-empty history the
menu that is sent has no button at all, although `uniqueCities` of the history has four
cities: the buttons made by `menu.Data` are never put into the menu. -/
theorem show_last_cities_menu_is_empty :
    getLastCities sampleEnv sampleDB 7 = .ok ["Kyiv", "Oslo", "Bern", "Oslo", "Riga"]
      ∧ uniqueCities ["Kyiv", "Oslo", "Bern", "Oslo", "Riga"] = ["Kyiv", "Oslo", "Bern", "Riga"]
      ∧ (onCallback sampleEnv 7 "show_last_cities" sampleWorld).1.sends
          = [⟨"Выберите город, прогноз для которого хотите узнать:",
              some { InlineKeyboard := [] }⟩] :=
  ⟨rfl, by decide, by decide⟩

/-- C6. For every store state and every inbound event, the history store after the event is
the old store with exactly one row (sender id, message text verbatim) appended when the
event is a free-text message whose weather fetch succeeds and whose insert succeeds, and is
the old store for every other event: `/start`, a free-text message whose fetch fails or
whose insert fails, and every button press. The text `Berlin` with a valid report adds the
single row `(7, "Berlin")`. -/
theorem handle_store_effect (env : Env) (ev : Event) (w : World) :
    (handle env ev w).1.db
        = (match ev with
          | .text sender text =>
            if fetchSucceeds env text = true ∧ env.execErr = none then
              { rows := w.db.rows
                  ++ [{ id := w.db.seq + 1, user_id := sender, city_name := text }],
                seq := w.db.seq + 1 }
            else w.db
          | .start _ => w.db
          | .callback _ _ => w.db)
      ∧ fetchSucceeds sampleEnv "Berlin" = true
      ∧ (handle sampleEnv (.text 7 "Berlin") sampleWorld).1.db.rows
          = sampleDB.rows ++ [{ id := 8, user_id := 7, city_name := "Berlin" }] := by
  refine ⟨?_, rfl, by decide⟩
  rw [handle_db]
  cases ev with
  | start sender => rfl
  | callback sender data => rfl
  | text sender city =>
    cases h : getWeather env city with
    | error err => simp [fetchSucceeds, h]
    | ok weather =>
      cases hw : weather.Weather with
      | nil => simp [fetchSucceeds, h, hw]
      | cons c0 rest =>
        cases he : env.execErr with
        | none => simp [fetchSucceeds, h, hw, saveCity, he]
        | some msg => simp [fetchSucceeds, h, hw, saveCity, he]

/-- C10 (a defect of the code). The callback data `weather` and `detailed_forecast`, which
pass the prefix tests and contain no `|`, split into one part only; the handler evaluates
index 1 of that split all the same and ends in an index-out-of-range panic. -/
theorem onCallback_without_separator_panics (env : Env) (sender : Int) (w : World) :
    stringsSplit "weather" '|' = ["weather"]
      ∧ onCallback env sender "weather" w
          = (w, .panicked "runtime error: index out of range [1] with length 1")
      ∧ stringsSplit "detailed_forecast" '|' = ["detailed_forecast"]
      ∧ onCallback env sender "detailed_forecast" w
          = (w, .panicked "runtime error: index out of range [1] with length 1") :=
  ⟨by decide, rfl, by decide, rfl⟩

/-! ### The callback handler on a payload `<action>|<city>` -/

theorem onCallback_weather_payload (env : Env) (sender : Int) (c : String) (w : World) :
    onCallback env sender ("weather" ++ "|" ++ c) w
      = match getWeather env (String.mk (c.data.takeWhile fun x => x != '|')) with
        | .error _ =>
          sendReturn env w ⟨"Не удалось получить данные о погоде для этого города.", none⟩
        | .ok weather =>
          match weather.Weather[0]? with
          | none => (w, .panicked "runtime error: index out of range [0] with length 0")
          | some c0 =>
            sendReturn env w
              ⟨shortReport env (String.mk (c.data.takeWhile fun x => x != '|')) weather c0, none⟩ := by
  have hd : ("weather" ++ "|" ++ c) ≠ "show_last_cities" := by
    intro h
    have := congrArg String.data h
    simp [String.data_append] at this
  have hp : hasPrefix ("weather" ++ "|" ++ c) "weather" = true := by
    simp [hasPrefix, String.data_append]
  have hc := callbackCity_append "weather" c (by decide)
  simp only [onCallback, hd, hp, hc, if_false, if_true]

theorem onCallback_detailed_payload (env : Env) (sender : Int) (c : String) (w : World) :
    onCallback env sender ("detailed_forecast" ++ "|" ++ c) w
      = match getWeather env (String.mk (c.data.takeWhile fun x => x != '|')) with
        | .error _ =>
          sendReturn env w ⟨"Не удалось получить данные о погоде для этого города.", none⟩
        | .ok weather =>
          match weather.Weather[0]? with
          | none => (w, .panicked "runtime error: index out of range [0] with length 0")
          | some c0 =>
            sendReturn env w
              ⟨detailedReport env (String.mk (c.data.takeWhile fun x => x != '|')) weather c0,
                none⟩ := by
  have hd : ("detailed_forecast" ++ "|" ++ c) ≠ "show_last_cities" := by
    intro h
    have := congrArg String.data h
    simp [String.data_append] at this
  have hw : hasPrefix ("detailed_forecast" ++ "|" ++ c) "weather" = false := by
    simp [hasPrefix, String.data_append, List.isPrefixOf]
  have hp : hasPrefix ("detailed_forecast" ++ "|" ++ c) "detailed_forecast" = true := by
    simp [hasPrefix, String.data_append]
  have hc := callbackCity_append "detailed_forecast" c (by decide)
  simp only [onCallback, hd, hw, hp, hc, if_false, if_true, Bool.false_eq_true]

end WBot
